import Mathlib

/-!
# The Ollama text-to-JSON provider

A shallow embedding of `internal/providers/ollamaprovider/texttojson.go`.

* Go `error` values are a small inductive type with the `%w` wrapping of
  `fmt.Errorf` as a constructor.
* The Ollama server, the process helpers and `net/url.Parse` are collaborators
  of the adapter.  They are gathered in a `Backend` record over an arbitrary
  server state `σ`, and every function of the adapter threads that state and
  records the calls it makes, in order.
* A channel is the list of the values sent on it, oldest first.
* The streaming calls of the client library (`Pull`, `Chat`) hand every item to
  a callback and stop at the first callback error (`deliver`).
* The availability loop of the constructor (`for { ... }`) has no bound in the
  source.  `modelLoop` runs at most `n` iterations of it and answers
  `Outcome.looping` when the loop is still going after them.
-/

namespace ollamaprovider

/-! ## Errors -/

/-- Go error values: a leaf error, or `fmt.Errorf(pfx + "%w", cause)`. -/
inductive GoError where
  | base (msg : String)
  | wrapf (pfx : String) (cause : GoError)
deriving DecidableEq, Repr

/-- The text of `err.Error()`. -/
def GoError.text : GoError → String
  | .base msg => msg
  | .wrapf pfx cause => pfx ++ cause.text

/-- The result of `errors.Unwrap`. -/
def GoError.unwrap : GoError → Option GoError
  | .base _ => none
  | .wrapf _ cause => some cause

/-! ## Data model -/

def OLamaTextToJSONDefaultModel : String := "llama3.1:latest"

def OLamaTextToJSONDefaultModelFast : String := "llama3.2:latest"

/-- Modelled from the spec: the type `olamaProviderConfig` is declared in another
file of the package.  It is an immutable value holding the server base address
and the model identifier. -/
structure olamaProviderConfig where
  baseURL : String
  model : String
deriving DecidableEq, Repr

/-- Modelled from the spec: the accessor `BaseURL()` of the configuration, the
server base address. -/
def olamaProviderConfig.BaseURL (config : olamaProviderConfig) : String :=
  config.baseURL

/-- A parsed `*url.URL`, kept as the text it was parsed from. -/
structure URL where
  raw : String
deriving DecidableEq, Repr

/-- The process handle, `*exec.Cmd` behind the pointer. -/
structure Cmd where
  path : String
  args : List String
deriving DecidableEq, Repr

/-- The value of `http.Client`: only its timeout, in seconds. -/
structure HTTPClient where
  timeoutSeconds : Nat
deriving DecidableEq, Repr

/-- The value of `api.Client`: the address it talks to and its HTTP client. -/
structure Client where
  base : URL
  http : HTTPClient
deriving DecidableEq, Repr

/-- The constructor `api.NewClient`. -/
def NewClient (base : URL) (http : HTTPClient) : Client :=
  { base := base, http := http }

structure TextToJSONProvider where
  config : olamaProviderConfig
  client : Client
  cmd : Option Cmd
deriving DecidableEq, Repr

/-! ### Types of the Ollama client library -/

/-- An entry of `api.ListResponse.Models`. -/
structure ListModelResponse where
  name : String
  digest : String
  size : Int
deriving DecidableEq, Repr

structure ListResponse where
  models : List ListModelResponse
deriving DecidableEq, Repr

/-- The request `api.PullRequest`; `stream` is the `*bool`, `none` for nil. -/
structure PullRequest where
  model : String
  stream : Option Bool
deriving DecidableEq, Repr

/-- One progress event of a pull; `total` and `completed` are `int64`. -/
structure ProgressResponse where
  status : String
  digest : String
  total : Int
  completed : Int
deriving DecidableEq, Repr

/-- The value `api.Message`. -/
structure ApiMessage where
  role : String
  content : String
deriving DecidableEq, Repr

/-- The zero value `api.Message{}`, what `make` fills a fresh slice with. -/
instance : Inhabited ApiMessage := ⟨{ role := "", content := "" }⟩

/-- The request `api.ChatRequest`; `stream` is the `*bool`, `none` for nil. -/
structure ChatRequest where
  model : String
  messages : List ApiMessage
  stream : Option Bool
  format : String
deriving DecidableEq, Repr

/-- One streamed chunk, `api.ChatResponse`. -/
structure ChatResponse where
  model : String
  message : ApiMessage
  done : Bool
deriving DecidableEq, Repr

/-! ### Types of the surrounding application -/

/-- Modelled from the spec: `chat.Message` is declared in another package of the
repository; the adapter reads only a role tag and a text body from each.  The
role type `ρ` is left open. -/
structure Message (ρ : Type) where
  role : ρ
  content : String

/-- Modelled from the spec: `completion.Usage` is declared in another package of
the repository, the usage statistics of a completion.  `Usage{}` is its zero
value. -/
structure Usage where
  inputTokens : Nat := 0
  outputTokens : Nat := 0
deriving DecidableEq, Repr

/-- Modelled from the spec: `completion.Completion` is declared in another
package of the repository.  Two variants: an incremental text fragment, and a
terminal tombstone carrying the full aggregated text, the model identifier and
usage statistics. -/
inductive Completion where
  | data (content : String)
  | tombStone (content : String) (model : String) (usage : Usage)
deriving DecidableEq, Repr

/-- Modelled from the spec: the constructor `completion.NewCompletionData` of the
incremental event, not in this file. -/
def NewCompletionData (content : String) : Completion :=
  .data content

/-- Modelled from the spec: the constructor `completion.NewCompletionTombStone`
of the terminal event, not in this file. -/
def NewCompletionTombStone (content model : String) (usage : Usage) : Completion :=
  .tombStone content model usage

/-- Modelled from the spec: the helper `boolPtr` is declared in another file of
the package; it returns a pointer to its argument. -/
def boolPtr (b : Bool) : Option Bool :=
  some b

/-! ## Collaborators -/

/-- What the server streams in answer to a pull: the progress events, then the
error the call ends with (`none` for nil). -/
structure PullStream where
  progress : List ProgressResponse
  err : Option GoError
deriving DecidableEq, Repr

/-- What the server streams in answer to a chat request: the chunks handed to
the callback, then the error the call ends with (`none` for nil).  A cancelled
context shows up here as a stream that ends with an error. -/
structure ChatStream where
  chunks : List ChatResponse
  err : Option GoError
deriving DecidableEq, Repr

/-- The collaborators of the adapter over a server state `σ`:
`parse` is `net/url.Parse`; `waitForOllamaServer` and `stopOllamaServer` are the
process helpers of the package, declared in another file; `list`, `pull` and
`chat` are what the server answers to `client.List`, `client.Pull` and
`client.Chat`. -/
structure Backend (σ : Type) where
  parse : String → Except GoError URL
  waitForOllamaServer : Client → σ → Option GoError × σ
  stopOllamaServer : Cmd → σ → Option GoError × σ
  list : Client → σ → Except GoError ListResponse × σ
  pull : Client → PullRequest → σ → PullStream × σ
  chat : Client → ChatRequest → σ → ChatStream × σ

/-- A call the adapter made to a collaborator, with what came back. -/
inductive Call where
  | wait (client : Client) (err : Option GoError)
  | list (resp : Except GoError ListResponse)
  | pull (req : PullRequest) (err : Option GoError)
  | chat (req : ChatRequest) (err : Option GoError)
  | stop (cmd : Cmd) (err : Option GoError)

/-- The streaming loop of the client library: every item goes to the callback
`fn` in order; a callback error ends the call with that error; after the last
item the call ends with the error of the stream itself. -/
def deliver {α κ : Type} (fn : α → κ → Option GoError × κ) :
    List α → Option GoError → κ → Option GoError × κ
  | [], fin, k => (fin, k)
  | a :: rest, fin, k =>
    match fn a k with
    | (some e, k1) => (some e, k1)
    | (none, k1) => deliver fn rest fin k1

/-! ## The adapter -/

/-- What a run of the constructor ends with: `provider p` is `return p, nil`,
`error e` is `return nil, e`, `panic e` is `panic(e)`, and `looping` says that
the availability loop is still going after the iterations that were run. -/
inductive Outcome where
  | looping
  | panic (e : GoError)
  | error (e : GoError)
  | provider (p : TextToJSONProvider)

/-- A line `progressCb` prints, as the arguments of its `Printf`: the model, the
status, and the two `uint64` values handed to `humanize.Bytes`. -/
structure ProgressLine where
  model : String
  status : String
  completed : Nat
  total : Nat
deriving DecidableEq, Repr

/-- The conversion `uint64(x)` of an `int64`. -/
def toUint64 (x : Int) : Nat :=
  (x % 2 ^ 64).toNat

/-- A run of the constructor: how it ended, the calls it made in order, the
progress lines it printed, and the server state it left. -/
structure Run (σ : Type) where
  outcome : Outcome
  calls : List Call
  stdout : List ProgressLine
  server : σ

/-- The callback handed to `client.Pull`: prints one line, returns nil. -/
def progressCb (model : String) (resp : ProgressResponse) (out : List ProgressLine) :
    Option GoError × List ProgressLine :=
  (none, out ++ [{ model := model, status := resp.status,
                   completed := toUint64 resp.completed, total := toUint64 resp.total }])

/-- Whether the listing has an entry named `model`: the inner `for ... range
listResp.Models` of the constructor. -/
def hasModel (model : String) (resp : ListResponse) : Bool :=
  resp.models.any (fun m => m.name == model)

/-- The first `n` iterations of the loop `for { ... }` of the constructor, from
server state `s`. -/
def modelLoop {σ : Type} (B : Backend σ) (p : TextToJSONProvider)
    (config : olamaProviderConfig) : Nat → σ → Run σ
  | 0, s => { outcome := .looping, calls := [], stdout := [], server := s }
  | n + 1, s =>
    match B.list p.client s with
    | (.error err, s1) =>
      { outcome := .error (.wrapf "error listing models: " err),
        calls := [.list (.error err)], stdout := [], server := s1 }
    | (.ok listResp, s1) =>
      if hasModel config.model listResp then
        { outcome := .provider p, calls := [.list (.ok listResp)], stdout := [], server := s1 }
      else
        let req : PullRequest := { model := config.model, stream := boolPtr true }
        match B.pull p.client req s1 with
        | (stream, s2) =>
          match deliver (progressCb config.model) stream.progress stream.err [] with
          | (some err, out) =>
            { outcome := .error (.wrapf "error pulling model: " err),
              calls := [.list (.ok listResp), .pull req (some err)],
              stdout := out, server := s2 }
          | (none, out) =>
            let r := modelLoop B p config n s2
            { outcome := r.outcome,
              calls := .list (.ok listResp) :: .pull req none :: r.calls,
              stdout := out ++ r.stdout, server := r.server }

/-- The timeout of the HTTP client, `10 * time.Second`, in seconds. -/
def defaultTimeout : Nat := 10

/-- The constructor, with at most `fuel` iterations of its availability loop. -/
def NewTextToJSONProvider {σ : Type} (B : Backend σ) (fuel : Nat)
    (config : olamaProviderConfig) (cmd : Option Cmd) (s : σ) : Run σ :=
  let httpClient : HTTPClient := { timeoutSeconds := defaultTimeout }
  match B.parse config.BaseURL with
  | .error err => { outcome := .panic err, calls := [], stdout := [], server := s }
  | .ok url =>
    let config : olamaProviderConfig :=
      if config.model = "" then { config with model := OLamaTextToJSONDefaultModelFast }
      else config
    let p : TextToJSONProvider :=
      { config := config, client := NewClient url httpClient, cmd := cmd }
    match cmd with
    | some _ =>
      match B.waitForOllamaServer p.client s with
      | (some err, s1) =>
        { outcome := .error (.wrapf "error waiting for ollama server: " err),
          calls := [.wait p.client (some err)], stdout := [], server := s1 }
      | (none, s1) =>
        let r := modelLoop B p config fuel s1
        { outcome := r.outcome, calls := .wait p.client none :: r.calls,
          stdout := r.stdout, server := r.server }
    | none => modelLoop B p config fuel s

/-- A run of `Close`: the error returned, the calls made, the server state. -/
structure CloseRun (σ : Type) where
  err : Option GoError
  calls : List Call
  server : σ

def TextToJSONProvider.Close {σ : Type} (B : Backend σ) (p : TextToJSONProvider) (s : σ) :
    CloseRun σ :=
  match p.cmd with
  | some cmd =>
    match B.stopOllamaServer cmd s with
    | (some err, s1) =>
      { err := some (.wrapf "error stopping ollama server: " err),
        calls := [.stop cmd (some err)], server := s1 }
    | (none, s1) => { err := none, calls := [.stop cmd none], server := s1 }
  | none => { err := none, calls := [], server := s }

def TextToJSONProvider.GetModel (p : TextToJSONProvider) : String :=
  p.config.model

/-- The request builder.  The slice `make([]api.Message, len(messages))` is a list
of zero values, filled index by index in the order of `range messages`;
`roleName` is `chat.Role.String`, declared in another package. -/
def completionRequestTextToJSON {ρ : Type} (roleName : ρ → String) (model : String)
    (messages : List (Message ρ)) : ChatRequest :=
  let stream := true
  let req : ChatRequest :=
    { model := model, stream := some stream,
      messages := List.replicate messages.length default, format := "json" }
  messages.enum.foldl
    (fun req im =>
      { req with messages :=
          req.messages.set im.1 { content := im.2.content, role := roleName im.2.role } })
    req

/-- The callback `resp` of `GenerateCompletion`.  Its state is the captured
variable `aggCompletion` and the channel `completionCh`. -/
def respCallback (p : TextToJSONProvider) (resp : ChatResponse)
    (k : String × List Completion) : Option GoError × (String × List Completion) :=
  if resp.done then
    (none, (k.1, k.2 ++ [NewCompletionTombStone k.1 p.config.model {}]))
  else
    (none, (k.1 ++ resp.message.content, k.2 ++ [NewCompletionData resp.message.content]))

/-- A run of `GenerateCompletion`: the error returned, the channel after the
call, the calls made, the receiver after the call (a value receiver, which the
body never assigns to), and the server state. -/
structure CompletionRun (σ : Type) where
  err : Option GoError
  completionCh : List Completion
  calls : List Call
  self : TextToJSONProvider
  server : σ

/-- The method `GenerateCompletion`; `completionCh` is what the channel has
carried so far. -/
def TextToJSONProvider.GenerateCompletion {σ ρ : Type} (B : Backend σ) (roleName : ρ → String)
    (p : TextToJSONProvider) (messages : List (Message ρ)) (completionCh : List Completion)
    (s : σ) : CompletionRun σ :=
  let req := completionRequestTextToJSON roleName p.config.model messages
  let aggCompletion := ""
  match B.chat p.client req s with
  | (stream, s1) =>
    match deliver (respCallback p) stream.chunks stream.err (aggCompletion, completionCh) with
    | (some err, k) =>
      { err := some (.wrapf "error creating completion stream: " err),
        completionCh := k.2, calls := [.chat req (some err)], self := p, server := s1 }
    | (none, k) =>
      { err := none, completionCh := k.2, calls := [.chat req none], self := p, server := s1 }

/-! ## Reading a run -/

/-- The answers to the `client.List` calls of a run, in order. -/
def listResponses : List Call → List (Except GoError ListResponse)
  | [] => []
  | .list resp :: rest => resp :: listResponses rest
  | .wait _ _ :: rest => listResponses rest
  | .pull _ _ :: rest => listResponses rest
  | .chat _ _ :: rest => listResponses rest
  | .stop _ _ :: rest => listResponses rest

/-- The `client.Pull` calls of a run, in order: the request and the error that
came back. -/
def pullCalls : List Call → List (PullRequest × Option GoError)
  | [] => []
  | .pull req err :: rest => (req, err) :: pullCalls rest
  | .wait _ _ :: rest => pullCalls rest
  | .list _ :: rest => pullCalls rest
  | .chat _ _ :: rest => pullCalls rest
  | .stop _ _ :: rest => pullCalls rest

/-- The `stopOllamaServer` calls of a run, in order. -/
def stopCalls : List Call → List (Cmd × Option GoError)
  | [] => []
  | .stop cmd err :: rest => (cmd, err) :: stopCalls rest
  | .wait _ _ :: rest => stopCalls rest
  | .list _ :: rest => stopCalls rest
  | .pull _ _ :: rest => stopCalls rest
  | .chat _ _ :: rest => stopCalls rest

def Completion.isTombStone : Completion → Bool
  | .tombStone _ _ _ => true
  | .data _ => false

/-- The identifier the spec calls effective: the default fast variant for an
empty configured identifier, the configured identifier otherwise. -/
def effectiveModel (config : olamaProviderConfig) : String :=
  if config.model = "" then "llama3.2:latest" else config.model

/-- The text aggregated over a sequence of chunks, in the spec's words: the
contents of the chunks not marked done, concatenated in order. -/
def aggregate (chunks : List ChatResponse) : String :=
  String.join ((chunks.filter (fun c => !c.done)).map (fun c => c.message.content))

/-- The event the spec gives for the chunk at position `i` of a stream: a
tombstone with the text aggregated so far for a chunk marked done, an
incremental event with the content of the chunk otherwise. -/
def eventOf (model : String) (chunks : List ChatResponse) (i : Nat) (c : ChatResponse) :
    Completion :=
  if c.done then .tombStone (aggregate (chunks.take i)) model {}
  else .data c.message.content

/-- The events the spec gives for a stream: one per chunk, in order. -/
def eventsOf (model : String) (chunks : List ChatResponse) : List Completion :=
  chunks.mapIdx (fun i c => eventOf model chunks i c)

/-- The stream the server answers the chat request of a call with. -/
def chatStreamOf {σ ρ : Type} (B : Backend σ) (roleName : ρ → String) (p : TextToJSONProvider)
    (messages : List (Message ρ)) (s : σ) : ChatStream :=
  (B.chat p.client (completionRequestTextToJSON roleName p.config.model messages) s).1

/-- The events a call wrote: what the channel carries after the call beyond what
it carried before, `completionCh`. -/
def writtenBy {σ ρ : Type} (B : Backend σ) (roleName : ρ → String) (p : TextToJSONProvider)
    (messages : List (Message ρ)) (completionCh : List Completion) (s : σ) : List Completion :=
  (p.GenerateCompletion B roleName messages completionCh s).completionCh.drop completionCh.length

/-! ## A simulated server -/

/-- The first check of `net/url.Parse`: a text with an ASCII control character
(below 0x20, or 0x7f) is rejected.  Everything else is accepted here. -/
def parseCTL (rawURL : String) : Except GoError URL :=
  if rawURL.data.any (fun c => c.val < 0x20 || c.val == 0x7f) then
    .error (.wrapf "parse: " (.base "net/url: invalid control character in URL"))
  else .ok { raw := rawURL }

/-- The faults and the chat stream a simulated server is set up with. -/
structure Sim where
  waitErr : Option GoError := none
  stopErr : Option GoError := none
  listErr : Option GoError := none
  pullErr : Option GoError := none
  chat : ChatStream := { chunks := [], err := none }

/-- A simulated server.  Its state is the names of the installed models; a
successful pull installs the model it names. -/
def simBackend (sim : Sim) : Backend (List String) where
  parse := parseCTL
  waitForOllamaServer := fun _ s => (sim.waitErr, s)
  stopOllamaServer := fun _ s => (sim.stopErr, s)
  list := fun _ s =>
    match sim.listErr with
    | some e => (.error e, s)
    | none => (.ok { models := s.map (fun n => { name := n, digest := "", size := 0 }) }, s)
  pull := fun _ req s =>
    match sim.pullErr with
    | some e => ({ progress := [{ status := "pulling manifest", digest := "",
                                  total := 0, completed := 0 }], err := some e }, s)
    | none => ({ progress := [{ status := "pulling manifest", digest := "",
                                total := 0, completed := 0 },
                              { status := "success", digest := "", total := 0, completed := 0 }],
                 err := none }, s ++ [req.model])
  chat := fun _ _ s => (sim.chat, s)

def simConfig : olamaProviderConfig :=
  { baseURL := "http://localhost:11434", model := "" }

/-- A configuration whose base address has a control character in it. -/
def simBadConfig : olamaProviderConfig :=
  { baseURL := "http://local\x7fhost:11434", model := "" }

def simCmd : Cmd :=
  { path := "ollama", args := ["serve"] }

def simProvider (cmd : Option Cmd) : TextToJSONProvider :=
  { config := { baseURL := "http://localhost:11434", model := "llama3.2:latest" },
    client := NewClient { raw := "http://localhost:11434" } { timeoutSeconds := 10 },
    cmd := cmd }

/-- The role tags of the simulated application. -/
inductive SimRole where
  | system
  | user
  | assistant
deriving DecidableEq, Repr

def SimRole.String : SimRole → String
  | .system => "system"
  | .user => "user"
  | .assistant => "assistant"

def simChunk (content : String) (done : Bool) : ChatResponse :=
  { model := "llama3.2:latest", message := { role := "assistant", content := content },
    done := done }

def simMessages : List (Message SimRole) :=
  [{ role := .system, content := "Answer in JSON." },
   { role := .user, content := "Give two numbers." }]

/-- A well-formed stream: two chunks not marked done, then the chunk marked
done. -/
def simStream : ChatStream :=
  { chunks := [simChunk "[1," false, simChunk "2]" false, simChunk "" true], err := none }

/-- A stream whose chunk marked done comes first. -/
def simStreamDoneFirst : ChatStream :=
  { chunks := [simChunk "" true, simChunk "[1,2]" false], err := none }

/-- A stream with two chunks marked done. -/
def simStreamDoneTwice : ChatStream :=
  { chunks := [simChunk "[1,2]" false, simChunk "" true, simChunk "" true], err := none }

/-- A stream cut by an error after one chunk. -/
def simStreamCut : ChatStream :=
  { chunks := [simChunk "[1," false], err := some (.base "unexpected EOF") }

/-- A configuration that names its model. -/
def simNamedConfig : olamaProviderConfig :=
  { baseURL := "http://localhost:11434", model := "mistral:latest" }

def simNamedProvider : TextToJSONProvider :=
  { config := simNamedConfig,
    client := NewClient { raw := "http://localhost:11434" } { timeoutSeconds := 10 },
    cmd := none }

/-! ## The request builder -/

/-- The zero-filled slice, filled index by index, is the mapped list. -/
theorem fill_enumFrom {ρ : Type} (f : Message ρ → ApiMessage) (ms : List (Message ρ)) :
    ∀ (filled : List ApiMessage) (req : ChatRequest),
      (ms.enumFrom filled.length).foldl
        (fun (req : ChatRequest) (im : Nat × Message ρ) =>
          { req with messages := req.messages.set im.1 (f im.2) })
        { req with messages := filled ++ List.replicate ms.length default }
      = { req with messages := filled ++ ms.map f } := by
  induction ms with
  | nil => intro filled req; simp
  | cons m rest ih =>
    intro filled req
    have h := ih (filled ++ [f m]) req
    simp only [List.length_append, List.length_singleton, List.append_assoc,
      List.singleton_append] at h
    simp only [List.enumFrom_cons, List.foldl_cons, List.length_cons, List.replicate_succ,
      List.map_cons]
    rw [← h]
    congr 2
    simp

theorem completionRequestTextToJSON_eq {ρ : Type} (roleName : ρ → String) (model : String)
    (messages : List (Message ρ)) :
    completionRequestTextToJSON roleName model messages =
      { model := model, stream := some true, format := "json",
        messages := messages.map
          (fun m => { content := m.content, role := roleName m.role }) } := by
  have h := fill_enumFrom (fun m => { content := m.content, role := roleName m.role })
    messages [] { model := model, stream := some true, format := "json", messages := [] }
  simpa [completionRequestTextToJSON, List.enum] using h

/-- C7: for every model identifier and every list of chat messages, the empty
list included, the request built carries the given model, has streaming set to
true and the format directive "json", and its message list has the length of the
input with, at every index, the content of the input message verbatim and the
textual name of its role; so the list is the input mapped in order. -/
theorem completionRequestTextToJSON_spec {ρ : Type} (roleName : ρ → String) (model : String)
    (messages : List (Message ρ)) :
    (completionRequestTextToJSON roleName model messages).model = model ∧
    (completionRequestTextToJSON roleName model messages).stream = some true ∧
    (completionRequestTextToJSON roleName model messages).format = "json" ∧
    (completionRequestTextToJSON roleName model messages).messages.length = messages.length ∧
    (∀ i : Nat, (completionRequestTextToJSON roleName model messages).messages[i]? =
      (messages[i]?).map (fun m => { content := m.content, role := roleName m.role })) ∧
    (completionRequestTextToJSON roleName model messages).messages =
      messages.map (fun m => { content := m.content, role := roleName m.role }) := by
  rw [completionRequestTextToJSON_eq]
  simp

/-! ## Close -/

/-- C6: `Close` on a provider without a process handle makes no call at all and
returns nil; on a provider with a handle it makes exactly one call, the
termination request against that handle, and returns nil when the request
succeeds and the failure wrapped in "error stopping ollama server: " when it
fails. -/
theorem Close_spec {σ : Type} (B : Backend σ) (p : TextToJSONProvider) (s : σ) :
    (p.cmd = none → (p.Close B s).err = none ∧ (p.Close B s).calls = []) ∧
    (∀ cmd : Cmd, p.cmd = some cmd →
      (p.Close B s).calls = [.stop cmd (B.stopOllamaServer cmd s).1] ∧
      stopCalls (p.Close B s).calls = [(cmd, (B.stopOllamaServer cmd s).1)] ∧
      ((B.stopOllamaServer cmd s).1 = none → (p.Close B s).err = none) ∧
      (∀ e : GoError, (B.stopOllamaServer cmd s).1 = some e →
        (p.Close B s).err = some (.wrapf "error stopping ollama server: " e))) := by
  constructor
  · intro h
    simp [TextToJSONProvider.Close, h]
  · intro cmd h
    unfold TextToJSONProvider.Close
    rw [h]
    rcases hs : B.stopOllamaServer cmd s with ⟨_ | e, s1⟩ <;> simp [stopCalls, hs]

/-- The three cases of C6 on the simulated server: no handle, a handle whose
termination succeeds, a handle whose termination fails. -/
theorem Close_spec_witness :
    ((simProvider none).Close (simBackend {}) []).err = none ∧
    ((simProvider none).Close (simBackend {}) []).calls = [] ∧
    ((simProvider (some simCmd)).Close (simBackend {}) []).err = none ∧
    stopCalls ((simProvider (some simCmd)).Close (simBackend {}) []).calls = [(simCmd, none)] ∧
    ((simProvider (some simCmd)).Close
        (simBackend { stopErr := some (.base "no such process") }) []).err =
      some (.wrapf "error stopping ollama server: " (.base "no such process")) :=
  ⟨((Close_spec (simBackend {}) (simProvider none) []).1 rfl).1,
   ((Close_spec (simBackend {}) (simProvider none) []).1 rfl).2,
   ((Close_spec (simBackend {}) (simProvider (some simCmd)) []).2 simCmd rfl).2.2.1 rfl,
   ((Close_spec (simBackend {}) (simProvider (some simCmd)) []).2 simCmd rfl).2.1,
   ((Close_spec (simBackend { stopErr := some (.base "no such process") })
      (simProvider (some simCmd)) []).2 simCmd rfl).2.2.2 _ rfl⟩

/-! ## Construction: the base address -/

/-- C8, as the code has it: when the base address does not parse, construction
panics with the parse error; it returns nothing to its caller, neither a
provider nor an error, and it makes no call and prints nothing. -/
theorem NewTextToJSONProvider_bad_url {σ : Type} (B : Backend σ) (fuel : Nat)
    (config : olamaProviderConfig) (cmd : Option Cmd) (s : σ) (e : GoError)
    (h : B.parse config.BaseURL = .error e) :
    (NewTextToJSONProvider B fuel config cmd s).outcome = .panic e ∧
    (NewTextToJSONProvider B fuel config cmd s).calls = [] ∧
    (NewTextToJSONProvider B fuel config cmd s).stdout = [] ∧
    (NewTextToJSONProvider B fuel config cmd s).server = s := by
  simp [NewTextToJSONProvider, h]

theorem NewTextToJSONProvider_bad_url_witness :
    (NewTextToJSONProvider (simBackend {}) 3 simBadConfig none []).outcome =
      .panic (.wrapf "parse: " (.base "net/url: invalid control character in URL")) ∧
    (NewTextToJSONProvider (simBackend {}) 3 simBadConfig none []).calls = [] :=
  ⟨(NewTextToJSONProvider_bad_url (simBackend {}) 3 simBadConfig none [] _ rfl).1,
   (NewTextToJSONProvider_bad_url (simBackend {}) 3 simBadConfig none [] _ rfl).2.1⟩

/-- C8 as stated fails: on a base address with a control character the parse
fails, and construction does not return an error value, it panics. -/
theorem NewTextToJSONProvider_bad_url_not_returned :
    (simBackend {}).parse simBadConfig.BaseURL =
      .error (.wrapf "parse: " (.base "net/url: invalid control character in URL")) ∧
    (NewTextToJSONProvider (simBackend {}) 3 simBadConfig none []).outcome =
      .panic (.wrapf "parse: " (.base "net/url: invalid control character in URL")) ∧
    ¬ ∃ e : GoError,
      (NewTextToJSONProvider (simBackend {}) 3 simBadConfig none []).outcome = .error e := by
  refine ⟨rfl, rfl, ?_⟩
  rintro ⟨e, he⟩
  have h : (NewTextToJSONProvider (simBackend {}) 3 simBadConfig none []).outcome =
      .panic (.wrapf "parse: " (.base "net/url: invalid control character in URL")) := rfl
  rw [h] at he
  cases he

/-! ## GenerateCompletion -/

theorem foldl_append_start (l : List String) :
    ∀ a : String, l.foldl (fun r s => r ++ s) a = a ++ l.foldl (fun r s => r ++ s) "" := by
  induction l with
  | nil => intro a; simp
  | cons x rest ih =>
    intro a
    simp only [List.foldl_cons]
    rw [ih (a ++ x), ih ("" ++ x)]
    simp [String.append_assoc]

theorem join_cons (a : String) (l : List String) :
    String.join (a :: l) = a ++ String.join l := by
  simp only [String.join, List.foldl_cons]
  rw [foldl_append_start]
  simp

theorem join_nil : String.join [] = "" := rfl

theorem aggregate_nil : aggregate [] = "" := rfl

theorem aggregate_cons (c : ChatResponse) (cs : List ChatResponse) :
    aggregate (c :: cs) = (if c.done then "" else c.message.content) ++ aggregate cs := by
  unfold aggregate
  cases hd : c.done <;> simp [List.filter_cons, hd, join_cons]

/-- What the callback does to a whole stream, from any aggregate and channel:
it never fails, it appends one event per chunk, and the aggregate grows by the
contents of the chunks not marked done. -/
theorem deliver_respCallback (p : TextToJSONProvider) (fin : Option GoError)
    (chunks : List ChatResponse) :
    ∀ (agg : String) (ch : List Completion),
      deliver (respCallback p) chunks fin (agg, ch) =
        (fin, (agg ++ aggregate chunks,
          ch ++ chunks.mapIdx (fun i c =>
            if c.done then Completion.tombStone (agg ++ aggregate (chunks.take i)) p.config.model {}
            else Completion.data c.message.content))) := by
  induction chunks with
  | nil => intro agg ch; simp [deliver, aggregate_nil]
  | cons c rest ih =>
    intro agg ch
    cases hd : c.done
    · simp [deliver, respCallback, hd, ih, List.mapIdx_cons, aggregate_cons, aggregate_nil,
        String.append_assoc, NewCompletionData]
    · simp [deliver, respCallback, hd, ih, List.mapIdx_cons, aggregate_cons, aggregate_nil,
        NewCompletionTombStone]

/-- The channel after a call, for any stream: what it carried before, then the
events of the chunks delivered. -/
theorem GenerateCompletion_channel {σ ρ : Type} (B : Backend σ) (roleName : ρ → String)
    (p : TextToJSONProvider) (messages : List (Message ρ)) (ch0 : List Completion) (s : σ) :
    (p.GenerateCompletion B roleName messages ch0 s).completionCh =
      ch0 ++ eventsOf p.config.model
        (B.chat p.client (completionRequestTextToJSON roleName p.config.model messages) s).1.chunks := by
  rcases h : B.chat p.client (completionRequestTextToJSON roleName p.config.model messages) s
    with ⟨⟨chunks, err⟩, s1⟩
  cases err <;>
    simp [TextToJSONProvider.GenerateCompletion, h, deliver_respCallback, eventsOf, eventOf]

/-- The error of a call, for any stream: nil when the stream ends without an
error, the error of the stream wrapped otherwise. -/
theorem GenerateCompletion_err {σ ρ : Type} (B : Backend σ) (roleName : ρ → String)
    (p : TextToJSONProvider) (messages : List (Message ρ)) (ch0 : List Completion) (s : σ) :
    (p.GenerateCompletion B roleName messages ch0 s).err =
      (B.chat p.client (completionRequestTextToJSON roleName p.config.model messages) s).1.err.map
        (GoError.wrapf "error creating completion stream: ") := by
  rcases h : B.chat p.client (completionRequestTextToJSON roleName p.config.model messages) s
    with ⟨⟨chunks, err⟩, s1⟩
  cases err <;> simp [TextToJSONProvider.GenerateCompletion, h, deliver_respCallback]

theorem GenerateCompletion_self {σ ρ : Type} (B : Backend σ) (roleName : ρ → String)
    (p : TextToJSONProvider) (messages : List (Message ρ)) (ch0 : List Completion) (s : σ) :
    (p.GenerateCompletion B roleName messages ch0 s).self = p := by
  rcases h : B.chat p.client (completionRequestTextToJSON roleName p.config.model messages) s
    with ⟨⟨chunks, err⟩, s1⟩
  cases err <;> simp [TextToJSONProvider.GenerateCompletion, h, deliver_respCallback]

theorem mapIdx_congr_getElem? {α β : Type} {f g : Nat → α → β} (l : List α)
    (h : ∀ (i : Nat) (c : α), l[i]? = some c → f i c = g i c) :
    l.mapIdx f = l.mapIdx g := by
  apply List.ext_getElem?
  intro i
  simp only [List.getElem?_mapIdx]
  cases hc : l[i]? with
  | none => rfl
  | some c => simp [h i c hc]

/-- The events of a stream begin with the events of any part of it already
delivered: later chunks change nothing of what was written. -/
theorem eventsOf_append (model : String) (a b : List ChatResponse) :
    eventsOf model (a ++ b) =
      eventsOf model a ++ b.mapIdx (fun i c => eventOf model (a ++ b) (i + a.length) c) := by
  unfold eventsOf
  rw [List.mapIdx_append]
  congr 1
  apply mapIdx_congr_getElem?
  intro i c hc
  have hi : i < a.length := (List.getElem?_eq_some_iff.mp hc).1
  simp [eventOf, List.take_append_of_le_length (Nat.le_of_lt hi)]

theorem eventsOf_length (model : String) (chunks : List ChatResponse) :
    (eventsOf model chunks).length = chunks.length := by
  simp [eventsOf]

theorem eventsOf_isTombStone (model : String) (chunks : List ChatResponse) :
    (eventsOf model chunks).map Completion.isTombStone = chunks.map (fun c => c.done) := by
  apply List.ext_getElem?
  intro i
  simp only [eventsOf, List.getElem?_map, List.getElem?_mapIdx]
  cases chunks[i]? with
  | none => rfl
  | some c => cases hd : c.done <;> simp [eventOf, hd, Completion.isTombStone]

theorem aggregate_of_none_done (chunks : List ChatResponse)
    (h : ∀ c ∈ chunks, c.done = false) :
    aggregate chunks = String.join (chunks.map (fun c => c.message.content)) := by
  unfold aggregate
  rw [List.filter_eq_self.mpr]
  intro c hc
  simp [h c hc]

/-- The events of N chunks not marked done followed by one chunk marked done. -/
theorem eventsOf_full_stream (model : String) (chunks : List ChatResponse) (last : ChatResponse)
    (hchunks : ∀ c ∈ chunks, c.done = false) (hlast : last.done = true) :
    eventsOf model (chunks ++ [last]) =
      chunks.map (fun c => Completion.data c.message.content) ++
        [Completion.tombStone (String.join (chunks.map (fun c => c.message.content))) model {}] := by
  rw [eventsOf_append]
  congr 1
  · unfold eventsOf
    apply List.ext_getElem?
    intro i
    simp only [List.getElem?_map, List.getElem?_mapIdx]
    cases hc : chunks[i]? with
    | none => rfl
    | some c =>
      have hmem : c ∈ chunks := List.getElem?_mem hc
      simp [eventOf, hchunks c hmem]
  · simp [eventOf, hlast, aggregate_of_none_done chunks hchunks]

theorem writtenBy_eq {σ ρ : Type} (B : Backend σ) (roleName : ρ → String)
    (p : TextToJSONProvider) (messages : List (Message ρ)) (ch0 : List Completion) (s : σ) :
    writtenBy B roleName p messages ch0 s =
      eventsOf p.config.model (chatStreamOf B roleName p messages s).chunks := by
  simp [writtenBy, chatStreamOf, GenerateCompletion_channel]

/-- C1: when the server streams N chunks not marked done and then one chunk
marked done, with no error, `GenerateCompletion` returns nil and writes N+1
events to the channel: one incremental event per chunk with the content of that
chunk, in order, then a tombstone whose text is the concatenation in order of
the N contents, whose model is the model of the provider and whose usage is
empty, whatever the chunk marked done carries. -/
theorem GenerateCompletion_full_stream {σ ρ : Type} (B : Backend σ) (roleName : ρ → String)
    (p : TextToJSONProvider) (messages : List (Message ρ)) (ch0 : List Completion) (s : σ)
    (chunks : List ChatResponse) (last : ChatResponse)
    (hchat : chatStreamOf B roleName p messages s = { chunks := chunks ++ [last], err := none })
    (hchunks : ∀ c ∈ chunks, c.done = false) (hlast : last.done = true) :
    (p.GenerateCompletion B roleName messages ch0 s).err = none ∧
    (p.GenerateCompletion B roleName messages ch0 s).completionCh =
      ch0 ++ (chunks.map (fun c => Completion.data c.message.content) ++
        [Completion.tombStone (String.join (chunks.map (fun c => c.message.content)))
          p.GetModel {}]) ∧
    (writtenBy B roleName p messages ch0 s).length = chunks.length + 1 ∧
    (∀ (i : Nat) (c : ChatResponse), chunks[i]? = some c →
      (writtenBy B roleName p messages ch0 s)[i]? = some (Completion.data c.message.content)) ∧
    (writtenBy B roleName p messages ch0 s)[chunks.length]? =
      some (Completion.tombStone (String.join (chunks.map (fun c => c.message.content)))
        p.GetModel {}) := by
  have hw := writtenBy_eq B roleName p messages ch0 s
  have hc := GenerateCompletion_channel B roleName p messages ch0 s
  have he := GenerateCompletion_err B roleName p messages ch0 s
  unfold chatStreamOf at hchat hw
  rw [hchat] at hc he hw
  simp only [eventsOf_full_stream _ chunks last hchunks hlast] at hc hw
  refine ⟨by simpa using he, hc, ?_, ?_, ?_⟩
  · simp [hw]
  · intro i c hi
    have hlt : i < chunks.length := (List.getElem?_eq_some_iff.mp hi).1
    rw [hw, List.getElem?_append_left (by simpa using hlt)]
    simp [hi]
  · rw [hw, List.getElem?_append_right (by simp)]
    simp [TextToJSONProvider.GetModel]

theorem GenerateCompletion_full_stream_witness :
    ((simProvider none).GenerateCompletion (simBackend { chat := simStream }) SimRole.String
        simMessages [] []).err = none ∧
    ((simProvider none).GenerateCompletion (simBackend { chat := simStream }) SimRole.String
        simMessages [] []).completionCh =
      [.data "[1,", .data "2]", .tombStone "[1,2]" "llama3.2:latest" {}] :=
  ⟨(GenerateCompletion_full_stream (simBackend { chat := simStream }) SimRole.String
      (simProvider none) simMessages [] [] [simChunk "[1," false, simChunk "2]" false]
      (simChunk "" true) rfl (by decide) rfl).1,
   (GenerateCompletion_full_stream (simBackend { chat := simStream }) SimRole.String
      (simProvider none) simMessages [] [] [simChunk "[1," false, simChunk "2]" false]
      (simChunk "" true) rfl (by decide) rfl).2.1⟩

/-- C2, as the code has it: for every sequence of chunks streamed during one
call, the events are written in the order of the chunks, one event per chunk,
an incremental event for a chunk not marked done and a tombstone for a chunk
marked done; so as many tombstones are written as chunks marked done came, and
the last event is a tombstone with exactly one tombstone written exactly when
the last chunk is marked done and is the only chunk marked done. -/
theorem GenerateCompletion_order {σ ρ : Type} (B : Backend σ) (roleName : ρ → String)
    (p : TextToJSONProvider) (messages : List (Message ρ)) (ch0 : List Completion) (s : σ) :
    (p.GenerateCompletion B roleName messages ch0 s).completionCh =
      ch0 ++ writtenBy B roleName p messages ch0 s ∧
    (writtenBy B roleName p messages ch0 s).length =
      (chatStreamOf B roleName p messages s).chunks.length ∧
    (∀ i : Nat, (writtenBy B roleName p messages ch0 s)[i]? =
      ((chatStreamOf B roleName p messages s).chunks[i]?).map
        (fun c => eventOf p.GetModel (chatStreamOf B roleName p messages s).chunks i c)) ∧
    (writtenBy B roleName p messages ch0 s).countP Completion.isTombStone =
      (chatStreamOf B roleName p messages s).chunks.countP (fun c => c.done) ∧
    (((writtenBy B roleName p messages ch0 s).getLast?.map Completion.isTombStone = some true ∧
        (writtenBy B roleName p messages ch0 s).countP Completion.isTombStone = 1) ↔
      ((chatStreamOf B roleName p messages s).chunks.getLast?.map (fun c => c.done) = some true ∧
        (chatStreamOf B roleName p messages s).chunks.countP (fun c => c.done) = 1)) := by
  have hw := writtenBy_eq B roleName p messages ch0 s
  have hc := GenerateCompletion_channel B roleName p messages ch0 s
  have ht := eventsOf_isTombStone p.config.model (chatStreamOf B roleName p messages s).chunks
  have hcount : (writtenBy B roleName p messages ch0 s).countP Completion.isTombStone =
      (chatStreamOf B roleName p messages s).chunks.countP (fun c => c.done) := by
    have h1 := List.countP_map (fun b : Bool => b) Completion.isTombStone
      (eventsOf p.config.model (chatStreamOf B roleName p messages s).chunks)
    have h2 := List.countP_map (fun b : Bool => b) (fun c : ChatResponse => c.done)
      (chatStreamOf B roleName p messages s).chunks
    rw [ht, h2] at h1
    rw [hw]
    exact h1.symm
  have hlast : (writtenBy B roleName p messages ch0 s).getLast?.map Completion.isTombStone =
      (chatStreamOf B roleName p messages s).chunks.getLast?.map (fun c => c.done) := by
    rw [hw, ← List.getLast?_map, ← List.getLast?_map, ht]
  refine ⟨?_, ?_, ?_, hcount, ?_⟩
  · rw [hw, hc]
    rfl
  · rw [hw, eventsOf_length]
  · intro i
    rw [hw]
    simp [eventsOf, List.getElem?_mapIdx, TextToJSONProvider.GetModel]
  · rw [hlast, hcount]

theorem GenerateCompletion_order_witness :
    writtenBy (simBackend { chat := simStreamDoneTwice }) SimRole.String (simProvider none)
        simMessages [] [] =
      [.data "[1,2]", .tombStone "[1,2]" "llama3.2:latest" {},
       .tombStone "[1,2]" "llama3.2:latest" {}] ∧
    (writtenBy (simBackend { chat := simStreamDoneTwice }) SimRole.String (simProvider none)
        simMessages [] []).countP Completion.isTombStone = 2 :=
  ⟨rfl, (GenerateCompletion_order (simBackend { chat := simStreamDoneTwice }) SimRole.String
      (simProvider none) simMessages [] []).2.2.2.1⟩

/-- C2 as stated fails: when the chunk marked done comes first the tombstone is
written first and the last event written is an incremental one; when two chunks
are marked done two tombstones are written; when none is, none is written. -/
theorem GenerateCompletion_tombstone_not_last_once :
    writtenBy (simBackend { chat := simStreamDoneFirst }) SimRole.String (simProvider none)
        simMessages [] [] =
      [.tombStone "" "llama3.2:latest" {}, .data "[1,2]"] ∧
    (writtenBy (simBackend { chat := simStreamDoneFirst }) SimRole.String (simProvider none)
        simMessages [] []).getLast?.map Completion.isTombStone = some false ∧
    (writtenBy (simBackend { chat := simStreamDoneTwice }) SimRole.String (simProvider none)
        simMessages [] []).countP Completion.isTombStone = 2 ∧
    (writtenBy (simBackend { chat := { chunks := [simChunk "[1,2]" false], err := none } })
        SimRole.String (simProvider none) simMessages [] []).countP Completion.isTombStone = 0 :=
  ⟨rfl, rfl, rfl, rfl⟩

/-- C10: when the streaming call ends with an error after some chunks went to
the callback, `GenerateCompletion` returns that error wrapped in "error creating
completion stream: "; the channel carries what it carried before and then
exactly the events of the chunks delivered, which are the first events of any
longer stream, and nothing after them: in particular no tombstone when no
delivered chunk was marked done; the receiver is unchanged, configuration and
model included. -/
theorem GenerateCompletion_stream_error {σ ρ : Type} (B : Backend σ) (roleName : ρ → String)
    (p : TextToJSONProvider) (messages : List (Message ρ)) (ch0 : List Completion) (s : σ)
    (delivered : List ChatResponse) (e : GoError)
    (hchat : chatStreamOf B roleName p messages s = { chunks := delivered, err := some e }) :
    (p.GenerateCompletion B roleName messages ch0 s).err =
      some (.wrapf "error creating completion stream: " e) ∧
    (p.GenerateCompletion B roleName messages ch0 s).completionCh =
      ch0 ++ eventsOf p.GetModel delivered ∧
    (∀ rest : List ChatResponse, eventsOf p.GetModel delivered =
      (eventsOf p.GetModel (delivered ++ rest)).take delivered.length) ∧
    ((∀ c ∈ delivered, c.done = false) →
      ∀ ev ∈ writtenBy B roleName p messages ch0 s, ev.isTombStone = false) ∧
    (p.GenerateCompletion B roleName messages ch0 s).self = p ∧
    (p.GenerateCompletion B roleName messages ch0 s).self.config = p.config ∧
    (p.GenerateCompletion B roleName messages ch0 s).self.GetModel = p.GetModel := by
  have hw := writtenBy_eq B roleName p messages ch0 s
  have hc := GenerateCompletion_channel B roleName p messages ch0 s
  have he := GenerateCompletion_err B roleName p messages ch0 s
  have hs := GenerateCompletion_self B roleName p messages ch0 s
  rw [hchat] at hw
  unfold chatStreamOf at hchat
  rw [hchat] at hc he
  refine ⟨by simpa using he, hc, ?_, ?_, hs, by rw [hs], by rw [hs]⟩
  · intro rest
    rw [eventsOf_append, List.take_left']
    exact eventsOf_length _ _
  · intro hnone ev hev
    rw [hw] at hev
    have ht := eventsOf_isTombStone p.config.model delivered
    have hmem : ev.isTombStone ∈ (eventsOf p.config.model delivered).map Completion.isTombStone :=
      List.mem_map_of_mem _ hev
    rw [ht, List.mem_map] at hmem
    obtain ⟨c, hcmem, hcd⟩ := hmem
    rw [← hcd]
    exact hnone c hcmem

theorem GenerateCompletion_stream_error_witness :
    ((simProvider none).GenerateCompletion (simBackend { chat := simStreamCut }) SimRole.String
        simMessages [] []).err =
      some (.wrapf "error creating completion stream: " (.base "unexpected EOF")) ∧
    ((simProvider none).GenerateCompletion (simBackend { chat := simStreamCut }) SimRole.String
        simMessages [] []).completionCh = [.data "[1,"] :=
  ⟨(GenerateCompletion_stream_error (simBackend { chat := simStreamCut }) SimRole.String
      (simProvider none) simMessages [] [] [simChunk "[1," false] (.base "unexpected EOF") rfl).1,
   (GenerateCompletion_stream_error (simBackend { chat := simStreamCut }) SimRole.String
      (simProvider none) simMessages [] [] [simChunk "[1," false] (.base "unexpected EOF") rfl).2.1⟩

/-! ## Construction: the availability loop -/

/-- The progress callback never fails: a pull ends with the error of its stream,
after one printed line per progress event. -/
theorem deliver_progressCb (model : String) (fin : Option GoError)
    (progress : List ProgressResponse) :
    ∀ out : List ProgressLine,
      deliver (progressCb model) progress fin out =
        (fin, out ++ progress.map (fun resp =>
          { model := model, status := resp.status,
            completed := toUint64 resp.completed, total := toUint64 resp.total })) := by
  induction progress with
  | nil => intro out; simp [deliver]
  | cons r rest ih => intro out; simp [deliver, progressCb, ih]

theorem modelLoop_zero {σ : Type} (B : Backend σ) (p : TextToJSONProvider)
    (config : olamaProviderConfig) (s : σ) :
    modelLoop B p config 0 s = { outcome := .looping, calls := [], stdout := [], server := s } :=
  rfl

/-- The four ways one iteration of the loop goes: the listing fails; the
listing has the model; the pull fails; the pull succeeds and the loop goes
round. -/
theorem modelLoop_succ {σ : Type} (B : Backend σ) (p : TextToJSONProvider)
    (config : olamaProviderConfig) (n : Nat) (s : σ) :
    (∃ e, (B.list p.client s).1 = .error e ∧
      (modelLoop B p config (n + 1) s).outcome = .error (.wrapf "error listing models: " e) ∧
      (modelLoop B p config (n + 1) s).calls = [.list (.error e)]) ∨
    (∃ resp, (B.list p.client s).1 = .ok resp ∧ hasModel config.model resp = true ∧
      (modelLoop B p config (n + 1) s).outcome = .provider p ∧
      (modelLoop B p config (n + 1) s).calls = [.list (.ok resp)]) ∨
    (∃ resp e, (B.list p.client s).1 = .ok resp ∧ hasModel config.model resp = false ∧
      (B.pull p.client { model := config.model, stream := some true }
        (B.list p.client s).2).1.err = some e ∧
      (modelLoop B p config (n + 1) s).outcome = .error (.wrapf "error pulling model: " e) ∧
      (modelLoop B p config (n + 1) s).calls =
        [.list (.ok resp), .pull { model := config.model, stream := some true } (some e)]) ∨
    (∃ resp, (B.list p.client s).1 = .ok resp ∧ hasModel config.model resp = false ∧
      (B.pull p.client { model := config.model, stream := some true }
        (B.list p.client s).2).1.err = none ∧
      (modelLoop B p config (n + 1) s).outcome =
        (modelLoop B p config n (B.pull p.client { model := config.model, stream := some true }
          (B.list p.client s).2).2).outcome ∧
      (modelLoop B p config (n + 1) s).calls =
        .list (.ok resp) :: .pull { model := config.model, stream := some true } none ::
          (modelLoop B p config n (B.pull p.client { model := config.model, stream := some true }
            (B.list p.client s).2).2).calls) := by
  rcases hl : B.list p.client s with ⟨e | resp, s1⟩
  · left
    exact ⟨e, rfl, by simp [modelLoop, hl], by simp [modelLoop, hl]⟩
  · right
    cases hm : hasModel config.model resp
    · right
      rcases hp : B.pull p.client { model := config.model, stream := some true } s1
        with ⟨⟨progress, err⟩, s2⟩
      cases err with
      | some e =>
        left
        exact ⟨resp, e, rfl, hm, by simp [hp],
          by simp [modelLoop, hl, hm, boolPtr, hp, deliver_progressCb],
          by simp [modelLoop, hl, hm, boolPtr, hp, deliver_progressCb]⟩
      | none =>
        right
        exact ⟨resp, rfl, hm, by simp [hp],
          by simp [modelLoop, hl, hm, boolPtr, hp, deliver_progressCb],
          by simp [modelLoop, hl, hm, boolPtr, hp, deliver_progressCb]⟩
    · left
      exact ⟨resp, rfl, hm, by simp [modelLoop, hl, hm], by simp [modelLoop, hl, hm]⟩

/-- A loop that ends with a provider ends with the provider it was given, and
its listings are: any number that lack the model, then one that has it. -/
theorem modelLoop_provider {σ : Type} (B : Backend σ) (p : TextToJSONProvider)
    (config : olamaProviderConfig) :
    ∀ (n : Nat) (s : σ) (q : TextToJSONProvider),
      (modelLoop B p config n s).outcome = .provider q →
      q = p ∧ ∃ init resp,
        listResponses (modelLoop B p config n s).calls = init ++ [.ok resp] ∧
        hasModel config.model resp = true ∧
        ∀ x ∈ init, ∃ r, x = .ok r ∧ hasModel config.model r = false := by
  intro n
  induction n with
  | zero => intro s q h; simp [modelLoop_zero] at h
  | succ n ih =>
    intro s q h
    rcases modelLoop_succ B p config n s with
      ⟨e, _, ho, _⟩ | ⟨resp, _, hm, ho, hc⟩ | ⟨resp, e, _, _, _, ho, _⟩ | ⟨resp, _, hm, _, ho, hc⟩
    · rw [ho] at h; cases h
    · rw [ho] at h
      injection h with h
      exact ⟨h.symm, [], resp, by simp [hc, listResponses], hm, by simp⟩
    · rw [ho] at h; cases h
    · rw [ho] at h
      obtain ⟨hq, init, r2, hl, hm2, hinit⟩ := ih _ q h
      refine ⟨hq, .ok resp :: init, r2, by simp [hc, listResponses, hl], hm2, ?_⟩
      intro x hx
      rcases List.mem_cons.mp hx with hx | hx
      · exact ⟨resp, hx, hm⟩
      · exact hinit x hx

/-- Every pull of the loop names the model of the configuration, with streaming
set. -/
theorem modelLoop_pullCalls {σ : Type} (B : Backend σ) (p : TextToJSONProvider)
    (config : olamaProviderConfig) :
    ∀ (n : Nat) (s : σ), ∀ x ∈ pullCalls (modelLoop B p config n s).calls,
      x.1 = { model := config.model, stream := some true } := by
  intro n
  induction n with
  | zero => intro s x hx; simp [modelLoop_zero, pullCalls] at hx
  | succ n ih =>
    intro s x hx
    rcases modelLoop_succ B p config n s with
      ⟨e, _, _, hc⟩ | ⟨resp, _, _, _, hc⟩ | ⟨resp, e, _, _, _, _, hc⟩ | ⟨resp, _, _, _, _, hc⟩
    · simp [hc, pullCalls] at hx
    · simp [hc, pullCalls] at hx
    · simp [hc, pullCalls] at hx
      simp [hx]
    · simp only [hc, pullCalls, List.mem_cons] at hx
      rcases hx with hx | hx
      · simp [hx]
      · exact ih _ x hx

/-- The loop stops at the first failing call: a failed listing or a failed pull
is the last call made, and the loop has ended with that failure wrapped. -/
theorem modelLoop_stops {σ : Type} (B : Backend σ) (p : TextToJSONProvider)
    (config : olamaProviderConfig) :
    ∀ (n : Nat) (s : σ) (i : Nat) (e : GoError),
      ((modelLoop B p config n s).calls[i]? = some (.list (.error e)) →
        i + 1 = (modelLoop B p config n s).calls.length ∧
        (modelLoop B p config n s).outcome = .error (.wrapf "error listing models: " e)) ∧
      (∀ req, (modelLoop B p config n s).calls[i]? = some (.pull req (some e)) →
        i + 1 = (modelLoop B p config n s).calls.length ∧
        (modelLoop B p config n s).outcome = .error (.wrapf "error pulling model: " e)) := by
  intro n
  induction n with
  | zero => intro s i e; simp [modelLoop_zero]
  | succ n ih =>
    intro s i e
    rcases modelLoop_succ B p config n s with
      ⟨e1, _, ho, hc⟩ | ⟨r, _, hr, ho, hc⟩ | ⟨r, e1, _, hr, _, ho, hc⟩ | ⟨r, _, hr, _, ho, hc⟩
    · rw [hc, ho]
      cases i with
      | zero => simp
      | succ i => simp
    · rw [hc, ho]
      cases i with
      | zero => simp
      | succ i => simp
    · rw [hc, ho]
      rcases i with _ | _ | i <;> simp
    · rw [hc, ho]
      rcases i with _ | _ | i
      · simp
      · simp
      · have h := ih (B.pull p.client { model := config.model, stream := some true }
          (B.list p.client s).2).2 i e
        simpa using h

/-! ## Construction -/

theorem effective_config (config : olamaProviderConfig) :
    (if config.model = "" then { config with model := OLamaTextToJSONDefaultModelFast }
      else config) = { baseURL := config.baseURL, model := effectiveModel config } := by
  unfold effectiveModel OLamaTextToJSONDefaultModelFast
  split <;> rfl

/-- The three ways construction goes: the address does not parse; the wait for
the server fails; or the availability loop runs, on the provider built from the
configuration with the effective model, after the wait when there is a process
handle. -/
theorem NewTextToJSONProvider_cases {σ : Type} (B : Backend σ) (fuel : Nat)
    (config : olamaProviderConfig) (cmd : Option Cmd) (s : σ) :
    (∃ e, (NewTextToJSONProvider B fuel config cmd s).outcome = .panic e ∧
      (NewTextToJSONProvider B fuel config cmd s).calls = []) ∨
    (∃ client e,
      (NewTextToJSONProvider B fuel config cmd s).outcome =
        .error (.wrapf "error waiting for ollama server: " e) ∧
      (NewTextToJSONProvider B fuel config cmd s).calls = [.wait client (some e)]) ∨
    (∃ url s0 pre, (pre = [] ∨ pre = [.wait (NewClient url { timeoutSeconds := 10 }) none]) ∧
      (NewTextToJSONProvider B fuel config cmd s).outcome =
        (modelLoop B
          { config := { baseURL := config.baseURL, model := effectiveModel config },
            client := NewClient url { timeoutSeconds := 10 }, cmd := cmd }
          { baseURL := config.baseURL, model := effectiveModel config } fuel s0).outcome ∧
      (NewTextToJSONProvider B fuel config cmd s).calls =
        pre ++ (modelLoop B
          { config := { baseURL := config.baseURL, model := effectiveModel config },
            client := NewClient url { timeoutSeconds := 10 }, cmd := cmd }
          { baseURL := config.baseURL, model := effectiveModel config } fuel s0).calls) := by
  rcases hp : B.parse config.BaseURL with e | url
  · left
    exact ⟨e, by simp [NewTextToJSONProvider, hp], by simp [NewTextToJSONProvider, hp]⟩
  · right
    cases cmd with
    | none =>
      right
      refine ⟨url, s, [], Or.inl rfl, ?_, ?_⟩ <;>
        simp [NewTextToJSONProvider, hp, effective_config, defaultTimeout]
    | some c =>
      rcases hw : B.waitForOllamaServer (NewClient url { timeoutSeconds := 10 }) s
        with ⟨_ | e, s1⟩
      · right
        refine ⟨url, s1, _, Or.inr rfl, ?_, ?_⟩ <;>
          simp [NewTextToJSONProvider, hp, effective_config, defaultTimeout, hw]
      · left
        refine ⟨NewClient url { timeoutSeconds := 10 }, e, ?_, ?_⟩ <;>
          simp [NewTextToJSONProvider, hp, effective_config, defaultTimeout, hw]

/-- More iterations change nothing of a loop that has ended. -/
theorem modelLoop_stable {σ : Type} (B : Backend σ) (p : TextToJSONProvider)
    (config : olamaProviderConfig) :
    ∀ (n : Nat) (s : σ), (modelLoop B p config n s).outcome ≠ .looping →
      ∀ k : Nat, modelLoop B p config (n + k) s = modelLoop B p config n s := by
  intro n
  induction n with
  | zero => intro s h; simp [modelLoop_zero] at h
  | succ n ih =>
    intro s h k
    have hk : n + 1 + k = (n + k) + 1 := by omega
    rw [hk]
    rcases hl : B.list p.client s with ⟨e | resp, s1⟩
    · simp [modelLoop, hl]
    · cases hm : hasModel config.model resp
      · rcases hp : B.pull p.client { model := config.model, stream := some true } s1
          with ⟨⟨progress, err⟩, s2⟩
        cases err with
        | some e => simp [modelLoop, hl, hm, boolPtr, hp, deliver_progressCb]
        | none =>
          have h2 : (modelLoop B p config n s2).outcome ≠ .looping := by
            simpa [modelLoop, hl, hm, boolPtr, hp, deliver_progressCb] using h
          simp [modelLoop, hl, hm, boolPtr, hp, deliver_progressCb, ih s2 h2 k]
      · simp [modelLoop, hl, hm]

/-- More iterations change nothing of a construction that has ended: what it
returned with `fuel` iterations allowed is what the unbounded loop returns. -/
theorem NewTextToJSONProvider_stable {σ : Type} (B : Backend σ) (fuel : Nat)
    (config : olamaProviderConfig) (cmd : Option Cmd) (s : σ)
    (h : (NewTextToJSONProvider B fuel config cmd s).outcome ≠ .looping) (k : Nat) :
    NewTextToJSONProvider B (fuel + k) config cmd s = NewTextToJSONProvider B fuel config cmd s := by
  rcases hp : B.parse config.BaseURL with e | url
  · simp [NewTextToJSONProvider, hp]
  · cases cmd with
    | none =>
      have h2 := h
      simp only [NewTextToJSONProvider, hp] at h2
      simp only [NewTextToJSONProvider, hp]
      exact modelLoop_stable B _ _ fuel s h2 k
    | some c =>
      rcases hw : B.waitForOllamaServer (NewClient url { timeoutSeconds := defaultTimeout }) s
        with ⟨_ | e, s1⟩
      · have h2 := h
        simp only [NewTextToJSONProvider, hp, hw] at h2
        simp only [NewTextToJSONProvider, hp, hw]
        rw [modelLoop_stable B _ _ fuel s1 h2 k]
      · simp [NewTextToJSONProvider, hp, hw]

/-- With one iteration or more, a construction that gets to the loop (the
address parses, and the wait succeeds when there is a process handle) makes its
first listing and records what the server answers. -/
theorem NewTextToJSONProvider_first_list {σ : Type} (B : Backend σ) (n : Nat)
    (config : olamaProviderConfig) (cmd : Option Cmd) (s s0 : σ) (url : URL)
    (hp : B.parse config.BaseURL = .ok url)
    (hw : (cmd = none ∧ s0 = s) ∨
      (cmd ≠ none ∧
        B.waitForOllamaServer (NewClient url { timeoutSeconds := defaultTimeout }) s = (none, s0))) :
    (listResponses (NewTextToJSONProvider B (n + 1) config cmd s).calls)[0]? =
      some (B.list (NewClient url { timeoutSeconds := defaultTimeout }) s0).1 := by
  have hloop : ∀ (p : TextToJSONProvider) (c : olamaProviderConfig),
      (listResponses (modelLoop B p c (n + 1) s0).calls)[0]? = some (B.list p.client s0).1 := by
    intro p c
    rcases modelLoop_succ B p c n s0 with
      ⟨e, hl, _, hc⟩ | ⟨r, hl, _, _, hc⟩ | ⟨r, e, hl, _, _, _, hc⟩ | ⟨r, hl, _, _, _, hc⟩ <;>
      simp [hc, hl, listResponses]
  rcases hw with ⟨hc, hs⟩ | ⟨hc, hwait⟩
  · subst hc hs
    simp only [NewTextToJSONProvider, hp]
    exact hloop _ _
  · cases cmd with
    | none => exact absurd rfl hc
    | some c =>
      simp only [NewTextToJSONProvider, hp, hwait, listResponses]
      exact hloop _ _

theorem listResponses_pre (pre rest : List Call) (client : Client)
    (h : pre = [] ∨ pre = [.wait client none]) :
    listResponses (pre ++ rest) = listResponses rest := by
  rcases h with h | h <;> simp [h, listResponses]

theorem pullCalls_pre (pre rest : List Call) (client : Client)
    (h : pre = [] ∨ pre = [.wait client none]) :
    pullCalls (pre ++ rest) = pullCalls rest := by
  rcases h with h | h <;> simp [h, pullCalls]

/-- Construction that gets to the loop: the address parses, and the wait
succeeds when there is a process handle.  Its outcome is the outcome of the
loop on the provider built with the effective model, and its calls are the
wait, when one is made, then the calls of the loop. -/
theorem NewTextToJSONProvider_loop {σ : Type} (B : Backend σ) (fuel : Nat)
    (config : olamaProviderConfig) (cmd : Option Cmd) (s s0 : σ) (url : URL)
    (hparse : B.parse config.BaseURL = .ok url)
    (hwait : (cmd = none ∧ s0 = s) ∨
      (cmd ≠ none ∧
        B.waitForOllamaServer (NewClient url { timeoutSeconds := defaultTimeout }) s = (none, s0))) :
    (NewTextToJSONProvider B fuel config cmd s).outcome =
      (modelLoop B
        { config := { baseURL := config.baseURL, model := effectiveModel config },
          client := NewClient url { timeoutSeconds := defaultTimeout }, cmd := cmd }
        { baseURL := config.baseURL, model := effectiveModel config } fuel s0).outcome ∧
    (NewTextToJSONProvider B fuel config cmd s).calls =
      (if cmd = none then []
        else [.wait (NewClient url { timeoutSeconds := defaultTimeout }) none]) ++
      (modelLoop B
        { config := { baseURL := config.baseURL, model := effectiveModel config },
          client := NewClient url { timeoutSeconds := defaultTimeout }, cmd := cmd }
        { baseURL := config.baseURL, model := effectiveModel config } fuel s0).calls := by
  rcases hwait with ⟨hc, hs⟩ | ⟨hc, hw⟩
  · subst hc hs
    simp [NewTextToJSONProvider, hparse, effective_config]
  · cases cmd with
    | none => exact absurd rfl hc
    | some c => simp [NewTextToJSONProvider, hparse, effective_config, hw]

/-- C3: when construction succeeds, `GetModel` on the provider returned is
"llama3.2:latest" for an empty configured identifier and the configured
identifier itself otherwise; that same identifier is the one looked up in the
listings (every listing but the last lacks it, the last has it) and the one
every pull request names, with streaming set. -/
theorem NewTextToJSONProvider_effective_model {σ : Type} (B : Backend σ) (fuel : Nat)
    (config : olamaProviderConfig) (cmd : Option Cmd) (s : σ) (q : TextToJSONProvider)
    (h : (NewTextToJSONProvider B fuel config cmd s).outcome = .provider q) :
    (config.model = "" → q.GetModel = "llama3.2:latest") ∧
    (config.model ≠ "" → q.GetModel = config.model) ∧
    (∃ init resp,
      listResponses (NewTextToJSONProvider B fuel config cmd s).calls = init ++ [.ok resp] ∧
      hasModel q.GetModel resp = true ∧
      ∀ x ∈ init, ∃ r, x = .ok r ∧ hasModel q.GetModel r = false) ∧
    (∀ x ∈ pullCalls (NewTextToJSONProvider B fuel config cmd s).calls,
      x.1.model = q.GetModel ∧ x.1.stream = some true) := by
  rcases NewTextToJSONProvider_cases B fuel config cmd s with
    ⟨e, ho, _⟩ | ⟨client, e, ho, _⟩ | ⟨url, s0, pre, hpre, ho, hc⟩
  · rw [ho] at h; cases h
  · rw [ho] at h; cases h
  · rw [ho] at h
    obtain ⟨hq, init, resp, hl, hm, hinit⟩ := modelLoop_provider B _ _ fuel s0 q h
    have hg : q.GetModel = effectiveModel config := by
      rw [hq]; rfl
    refine ⟨?_, ?_, ⟨init, resp, ?_, ?_, ?_⟩, ?_⟩
    · intro he
      rw [hg]; simp [effectiveModel, he]
    · intro he
      rw [hg]; simp [effectiveModel, he]
    · rw [hc, listResponses_pre _ _ _ hpre, hl]
    · rw [hg]; exact hm
    · rw [hg]; exact hinit
    · intro x hx
      rw [hc, pullCalls_pre _ _ _ hpre] at hx
      have hx1 := modelLoop_pullCalls B _ _ fuel s0 x hx
      rw [hx1, hg]
      exact ⟨rfl, rfl⟩

/-- Two runs of C3: an empty identifier on a server that has the default model,
and a named model that the server has to pull first. -/
theorem NewTextToJSONProvider_effective_model_witness :
    (NewTextToJSONProvider (simBackend {}) 1 simConfig none ["llama3.2:latest"]).outcome =
      .provider (simProvider none) ∧
    (NewTextToJSONProvider (simBackend {}) 2 simNamedConfig none []).outcome =
      .provider simNamedProvider ∧
    (simProvider none).GetModel = "llama3.2:latest" ∧
    simNamedProvider.GetModel = "mistral:latest" ∧
    (∀ x ∈ pullCalls (NewTextToJSONProvider (simBackend {}) 2 simNamedConfig none []).calls,
      x.1.model = "mistral:latest" ∧ x.1.stream = some true) :=
  ⟨rfl, rfl,
   (NewTextToJSONProvider_effective_model (simBackend {}) 1 simConfig none ["llama3.2:latest"]
      (simProvider none) rfl).1 rfl,
   (NewTextToJSONProvider_effective_model (simBackend {}) 2 simNamedConfig none []
      simNamedProvider rfl).2.1 (by decide),
   (NewTextToJSONProvider_effective_model (simBackend {}) 2 simNamedConfig none []
      simNamedProvider rfl).2.2.2⟩

/-- C4, as the code has it: when the base address parses, the wait for the
server succeeds if there is a process handle, and the server answers the first
model listing with a success that has an entry named the effective model, then
construction, given one loop iteration or more, returns the provider (built
with the effective model and the handle it was given) after exactly one
listing and no pull: its calls are the wait, when there is a handle, and that
one listing. -/
theorem NewTextToJSONProvider_present {σ : Type} (B : Backend σ) (n : Nat)
    (config : olamaProviderConfig) (cmd : Option Cmd) (s s0 : σ) (url : URL)
    (resp : ListResponse)
    (hparse : B.parse config.BaseURL = .ok url)
    (hwait : (cmd = none ∧ s0 = s) ∨
      (cmd ≠ none ∧
        B.waitForOllamaServer (NewClient url { timeoutSeconds := defaultTimeout }) s = (none, s0)))
    (hlist : (B.list (NewClient url { timeoutSeconds := defaultTimeout }) s0).1 = .ok resp)
    (hm : hasModel (effectiveModel config) resp = true) :
    (NewTextToJSONProvider B (n + 1) config cmd s).outcome =
      .provider
        { config := { baseURL := config.baseURL, model := effectiveModel config },
          client := NewClient url { timeoutSeconds := defaultTimeout }, cmd := cmd } ∧
    (NewTextToJSONProvider B (n + 1) config cmd s).calls =
      (if cmd = none then []
        else [.wait (NewClient url { timeoutSeconds := defaultTimeout }) none]) ++
      [.list (.ok resp)] ∧
    listResponses (NewTextToJSONProvider B (n + 1) config cmd s).calls = [.ok resp] ∧
    (listResponses (NewTextToJSONProvider B (n + 1) config cmd s).calls).length = 1 ∧
    (pullCalls (NewTextToJSONProvider B (n + 1) config cmd s).calls).length = 0 ∧
    (∀ k : Nat, NewTextToJSONProvider B (n + 1 + k) config cmd s =
      NewTextToJSONProvider B (n + 1) config cmd s) := by
  obtain ⟨ho, hc⟩ := NewTextToJSONProvider_loop B (n + 1) config cmd s s0 url hparse hwait
  have hfacts :
      (modelLoop B
        { config := { baseURL := config.baseURL, model := effectiveModel config },
          client := NewClient url { timeoutSeconds := defaultTimeout }, cmd := cmd }
        { baseURL := config.baseURL, model := effectiveModel config } (n + 1) s0).outcome =
        .provider
          { config := { baseURL := config.baseURL, model := effectiveModel config },
            client := NewClient url { timeoutSeconds := defaultTimeout }, cmd := cmd } ∧
      (modelLoop B
        { config := { baseURL := config.baseURL, model := effectiveModel config },
          client := NewClient url { timeoutSeconds := defaultTimeout }, cmd := cmd }
        { baseURL := config.baseURL, model := effectiveModel config } (n + 1) s0).calls =
        [.list (.ok resp)] := by
    rcases modelLoop_succ B
        { config := { baseURL := config.baseURL, model := effectiveModel config },
          client := NewClient url { timeoutSeconds := defaultTimeout }, cmd := cmd }
        { baseURL := config.baseURL, model := effectiveModel config } n s0 with
      ⟨e, hl, _, _⟩ | ⟨r, hl, _, hout, hcalls⟩ | ⟨r, e, hl, hr, _, _, _⟩ | ⟨r, hl, hr, _, _, _⟩
    · have h := hlist.symm.trans hl
      cases h
    · have h := hlist.symm.trans hl
      injection h with h
      subst h
      exact ⟨hout, hcalls⟩
    · have h := hlist.symm.trans hl
      injection h with h
      subst h
      have h2 := hm.symm.trans hr
      cases h2
    · have h := hlist.symm.trans hl
      injection h with h
      subst h
      have h2 := hm.symm.trans hr
      cases h2
  obtain ⟨hout, hcalls⟩ := hfacts
  rw [hcalls] at hc
  rw [hout] at ho
  refine ⟨ho, hc, ?_, ?_, ?_, ?_⟩
  · rw [hc]; cases cmd <;> simp [listResponses]
  · rw [hc]; cases cmd <;> simp [listResponses]
  · rw [hc]; cases cmd <;> simp [pullCalls]
  · apply NewTextToJSONProvider_stable
    rw [ho]
    exact fun hne => Outcome.noConfusion hne

/-- Two runs of C4 on a server that has the default model among its models:
without a process handle, and with one. -/
theorem NewTextToJSONProvider_present_witness :
    (NewTextToJSONProvider (simBackend {}) 1 simConfig none
        ["llama3.1:latest", "llama3.2:latest"]).outcome = .provider (simProvider none) ∧
    (NewTextToJSONProvider (simBackend {}) 5 simConfig (some simCmd)
        ["llama3.1:latest", "llama3.2:latest"]).outcome = .provider (simProvider (some simCmd)) ∧
    (listResponses (NewTextToJSONProvider (simBackend {}) 5 simConfig (some simCmd)
        ["llama3.1:latest", "llama3.2:latest"]).calls).length = 1 ∧
    (pullCalls (NewTextToJSONProvider (simBackend {}) 5 simConfig (some simCmd)
        ["llama3.1:latest", "llama3.2:latest"]).calls).length = 0 :=
  ⟨(NewTextToJSONProvider_present (simBackend {}) 0 simConfig none
      ["llama3.1:latest", "llama3.2:latest"] _ _ _ rfl (Or.inl ⟨rfl, rfl⟩) rfl rfl).1,
   (NewTextToJSONProvider_present (simBackend {}) 4 simConfig (some simCmd)
      ["llama3.1:latest", "llama3.2:latest"] _ _ _ rfl (Or.inr ⟨by simp, rfl⟩) rfl rfl).1,
   (NewTextToJSONProvider_present (simBackend {}) 4 simConfig (some simCmd)
      ["llama3.1:latest", "llama3.2:latest"] _ _ _ rfl (Or.inr ⟨by simp, rfl⟩) rfl rfl).2.2.2.1,
   (NewTextToJSONProvider_present (simBackend {}) 4 simConfig (some simCmd)
      ["llama3.1:latest", "llama3.2:latest"] _ _ _ rfl
      (Or.inr ⟨by simp, rfl⟩) rfl rfl).2.2.2.2.1⟩

/-- C4 as stated fails.  The simulated server answers every listing with a
success that has the default model.  On a base address that does not parse,
construction panics and makes no listing; with a process handle and a wait that
fails, construction returns the wait failure and makes no listing.  In neither
run is a provider returned. -/
theorem NewTextToJSONProvider_present_not_reached :
    (∀ client : Client,
      ((simBackend { waitErr := some (.base "server not ready") }).list client
          ["llama3.2:latest"]).1 =
        .ok { models := [{ name := "llama3.2:latest", digest := "", size := 0 }] }) ∧
    hasModel (effectiveModel simBadConfig)
      { models := [{ name := "llama3.2:latest", digest := "", size := 0 }] } = true ∧
    hasModel (effectiveModel simConfig)
      { models := [{ name := "llama3.2:latest", digest := "", size := 0 }] } = true ∧
    (NewTextToJSONProvider (simBackend { waitErr := some (.base "server not ready") }) 3
        simBadConfig none ["llama3.2:latest"]).outcome =
      .panic (.wrapf "parse: " (.base "net/url: invalid control character in URL")) ∧
    (listResponses (NewTextToJSONProvider
        (simBackend { waitErr := some (.base "server not ready") }) 3
        simBadConfig none ["llama3.2:latest"]).calls).length = 0 ∧
    (NewTextToJSONProvider (simBackend { waitErr := some (.base "server not ready") }) 3
        simConfig (some simCmd) ["llama3.2:latest"]).outcome =
      .error (.wrapf "error waiting for ollama server: " (.base "server not ready")) ∧
    (listResponses (NewTextToJSONProvider
        (simBackend { waitErr := some (.base "server not ready") }) 3
        simConfig (some simCmd) ["llama3.2:latest"]).calls).length = 0 :=
  ⟨fun _ => rfl, rfl, rfl, rfl, rfl, rfl, rfl⟩

/-- C5, as the code has it: when the base address parses, the wait for the
server succeeds if there is a process handle, the server answers the first
model listing with a success that lacks the effective model, then answers the
pull of that model (streaming set) without an error, then answers the second
listing with a success that has the model, then construction, given two loop
iterations or more, returns the provider after exactly one pull, for the
effective model with streaming set, and exactly two listings: its calls are
the wait, when there is a handle, the listing, the pull and the listing. -/
theorem NewTextToJSONProvider_pull_present {σ : Type} (B : Backend σ) (n : Nat)
    (config : olamaProviderConfig) (cmd : Option Cmd) (s s0 : σ) (url : URL)
    (r1 r2 : ListResponse)
    (hparse : B.parse config.BaseURL = .ok url)
    (hwait : (cmd = none ∧ s0 = s) ∨
      (cmd ≠ none ∧
        B.waitForOllamaServer (NewClient url { timeoutSeconds := defaultTimeout }) s = (none, s0)))
    (hlist1 : (B.list (NewClient url { timeoutSeconds := defaultTimeout }) s0).1 = .ok r1)
    (hm1 : hasModel (effectiveModel config) r1 = false)
    (hpull : (B.pull (NewClient url { timeoutSeconds := defaultTimeout })
        { model := effectiveModel config, stream := some true }
        (B.list (NewClient url { timeoutSeconds := defaultTimeout }) s0).2).1.err = none)
    (hlist2 : (B.list (NewClient url { timeoutSeconds := defaultTimeout })
        (B.pull (NewClient url { timeoutSeconds := defaultTimeout })
          { model := effectiveModel config, stream := some true }
          (B.list (NewClient url { timeoutSeconds := defaultTimeout }) s0).2).2).1 = .ok r2)
    (hm2 : hasModel (effectiveModel config) r2 = true) :
    (NewTextToJSONProvider B (n + 2) config cmd s).outcome =
      .provider
        { config := { baseURL := config.baseURL, model := effectiveModel config },
          client := NewClient url { timeoutSeconds := defaultTimeout }, cmd := cmd } ∧
    (NewTextToJSONProvider B (n + 2) config cmd s).calls =
      (if cmd = none then []
        else [.wait (NewClient url { timeoutSeconds := defaultTimeout }) none]) ++
      [.list (.ok r1), .pull { model := effectiveModel config, stream := some true } none,
       .list (.ok r2)] ∧
    pullCalls (NewTextToJSONProvider B (n + 2) config cmd s).calls =
      [({ model := effectiveModel config, stream := some true }, none)] ∧
    (pullCalls (NewTextToJSONProvider B (n + 2) config cmd s).calls).length = 1 ∧
    listResponses (NewTextToJSONProvider B (n + 2) config cmd s).calls = [.ok r1, .ok r2] ∧
    (listResponses (NewTextToJSONProvider B (n + 2) config cmd s).calls).length = 2 ∧
    (∀ k : Nat, NewTextToJSONProvider B (n + 2 + k) config cmd s =
      NewTextToJSONProvider B (n + 2) config cmd s) := by
  obtain ⟨ho, hc⟩ := NewTextToJSONProvider_loop B (n + 2) config cmd s s0 url hparse hwait
  have hfacts :
      (modelLoop B
        { config := { baseURL := config.baseURL, model := effectiveModel config },
          client := NewClient url { timeoutSeconds := defaultTimeout }, cmd := cmd }
        { baseURL := config.baseURL, model := effectiveModel config } (n + 2) s0).outcome =
        .provider
          { config := { baseURL := config.baseURL, model := effectiveModel config },
            client := NewClient url { timeoutSeconds := defaultTimeout }, cmd := cmd } ∧
      (modelLoop B
        { config := { baseURL := config.baseURL, model := effectiveModel config },
          client := NewClient url { timeoutSeconds := defaultTimeout }, cmd := cmd }
        { baseURL := config.baseURL, model := effectiveModel config } (n + 2) s0).calls =
        [.list (.ok r1), .pull { model := effectiveModel config, stream := some true } none,
         .list (.ok r2)] := by
    rcases modelLoop_succ B
        { config := { baseURL := config.baseURL, model := effectiveModel config },
          client := NewClient url { timeoutSeconds := defaultTimeout }, cmd := cmd }
        { baseURL := config.baseURL, model := effectiveModel config } (n + 1) s0 with
      ⟨e, hl, _, _⟩ | ⟨r, hl, hr, _, _⟩ | ⟨r, e, hl, _, hp, _, _⟩ | ⟨r, hl, _, _, hout, hcalls⟩
    · have h := hlist1.symm.trans hl
      cases h
    · have h := hlist1.symm.trans hl
      injection h with h
      subst h
      have h2 := hm1.symm.trans hr
      cases h2
    · have h := hpull.symm.trans hp
      cases h
    · have h := hlist1.symm.trans hl
      injection h with h
      subst h
      rcases modelLoop_succ B
          { config := { baseURL := config.baseURL, model := effectiveModel config },
            client := NewClient url { timeoutSeconds := defaultTimeout }, cmd := cmd }
          { baseURL := config.baseURL, model := effectiveModel config } n
          (B.pull (NewClient url { timeoutSeconds := defaultTimeout })
            { model := effectiveModel config, stream := some true }
            (B.list (NewClient url { timeoutSeconds := defaultTimeout }) s0).2).2 with
        ⟨e, hl2, _, _⟩ | ⟨r, hl2, _, hout2, hcalls2⟩ | ⟨r, e, hl2, hr2, _, _, _⟩ |
          ⟨r, hl2, hr2, _, _, _⟩
      · have h := hlist2.symm.trans hl2
        cases h
      · have h := hlist2.symm.trans hl2
        injection h with h
        subst h
        exact ⟨hout.trans hout2, hcalls.trans (by rw [hcalls2])⟩
      · have h := hlist2.symm.trans hl2
        injection h with h
        subst h
        have h2 := hm2.symm.trans hr2
        cases h2
      · have h := hlist2.symm.trans hl2
        injection h with h
        subst h
        have h2 := hm2.symm.trans hr2
        cases h2
  obtain ⟨hout, hcalls⟩ := hfacts
  rw [hcalls] at hc
  rw [hout] at ho
  refine ⟨ho, hc, ?_, ?_, ?_, ?_, ?_⟩
  · rw [hc]; cases cmd <;> simp [pullCalls]
  · rw [hc]; cases cmd <;> simp [pullCalls]
  · rw [hc]; cases cmd <;> simp [listResponses]
  · rw [hc]; cases cmd <;> simp [listResponses]
  · apply NewTextToJSONProvider_stable
    rw [ho]
    exact fun hne => Outcome.noConfusion hne

/-- Two runs of C5 on a server that has no model at first and installs the
default one on the pull: without a process handle, and with one. -/
theorem NewTextToJSONProvider_pull_present_witness :
    (NewTextToJSONProvider (simBackend {}) 2 simConfig none []).outcome =
      .provider (simProvider none) ∧
    pullCalls (NewTextToJSONProvider (simBackend {}) 2 simConfig none []).calls =
      [({ model := "llama3.2:latest", stream := some true }, none)] ∧
    (listResponses
      (NewTextToJSONProvider (simBackend {}) 2 simConfig none []).calls).length = 2 ∧
    (NewTextToJSONProvider (simBackend {}) 6 simConfig (some simCmd) []).outcome =
      .provider (simProvider (some simCmd)) :=
  ⟨(NewTextToJSONProvider_pull_present (simBackend {}) 0 simConfig none [] _ _ _ _
      rfl (Or.inl ⟨rfl, rfl⟩) rfl rfl rfl rfl rfl).1,
   (NewTextToJSONProvider_pull_present (simBackend {}) 0 simConfig none [] _ _ _ _
      rfl (Or.inl ⟨rfl, rfl⟩) rfl rfl rfl rfl rfl).2.2.1,
   (NewTextToJSONProvider_pull_present (simBackend {}) 0 simConfig none [] _ _ _ _
      rfl (Or.inl ⟨rfl, rfl⟩) rfl rfl rfl rfl rfl).2.2.2.2.2.1,
   (NewTextToJSONProvider_pull_present (simBackend {}) 4 simConfig (some simCmd) [] _ _ _ _
      rfl (Or.inr ⟨by simp, rfl⟩) rfl rfl rfl rfl rfl).1⟩

/-- C5 as stated fails.  The simulated server answers a listing with a success
without the default model while it has none, answers the pull without an error
and installs the model, and then answers a listing with a success that has it.
On a base address that does not parse, construction panics and makes no pull
and no listing; with a process handle and a wait that fails, construction
returns the wait failure and makes no pull and no listing. -/
theorem NewTextToJSONProvider_pull_present_not_reached :
    (∀ client : Client,
      ((simBackend { waitErr := some (.base "server not ready") }).list client []).1 =
        .ok { models := [] }) ∧
    (∀ client : Client,
      ((simBackend { waitErr := some (.base "server not ready") }).pull client
        { model := "llama3.2:latest", stream := some true } []).1.err = none) ∧
    (∀ client : Client,
      ((simBackend { waitErr := some (.base "server not ready") }).list client
        ((simBackend { waitErr := some (.base "server not ready") }).pull client
          { model := "llama3.2:latest", stream := some true } []).2).1 =
        .ok { models := [{ name := "llama3.2:latest", digest := "", size := 0 }] }) ∧
    hasModel (effectiveModel simConfig) { models := [] } = false ∧
    hasModel (effectiveModel simConfig)
      { models := [{ name := "llama3.2:latest", digest := "", size := 0 }] } = true ∧
    (NewTextToJSONProvider (simBackend { waitErr := some (.base "server not ready") }) 3
        simBadConfig none []).outcome =
      .panic (.wrapf "parse: " (.base "net/url: invalid control character in URL")) ∧
    (pullCalls (NewTextToJSONProvider
        (simBackend { waitErr := some (.base "server not ready") }) 3
        simBadConfig none []).calls).length = 0 ∧
    (listResponses (NewTextToJSONProvider
        (simBackend { waitErr := some (.base "server not ready") }) 3
        simBadConfig none []).calls).length = 0 ∧
    (NewTextToJSONProvider (simBackend { waitErr := some (.base "server not ready") }) 3
        simConfig (some simCmd) []).outcome =
      .error (.wrapf "error waiting for ollama server: " (.base "server not ready")) ∧
    (pullCalls (NewTextToJSONProvider
        (simBackend { waitErr := some (.base "server not ready") }) 3
        simConfig (some simCmd) []).calls).length = 0 ∧
    (listResponses (NewTextToJSONProvider
        (simBackend { waitErr := some (.base "server not ready") }) 3
        simConfig (some simCmd) []).calls).length = 0 :=
  ⟨fun _ => rfl, fun _ => rfl, fun _ => rfl, rfl, rfl, rfl, rfl, rfl, rfl, rfl, rfl⟩

/-- C9: construction stops at the first failing backend call.  A listing that
fails is the last call construction makes, and construction has returned that
failure wrapped in "error listing models: ", with no provider; a pull that
fails is the last call construction makes, and construction has returned that
failure wrapped in "error pulling model: ", with no provider.  In both cases
that is the whole run, however many more iterations the loop is allowed. -/
theorem NewTextToJSONProvider_stops {σ : Type} (B : Backend σ) (fuel : Nat)
    (config : olamaProviderConfig) (cmd : Option Cmd) (s : σ) (i : Nat) (e : GoError) :
    ((NewTextToJSONProvider B fuel config cmd s).calls[i]? = some (.list (.error e)) →
      i + 1 = (NewTextToJSONProvider B fuel config cmd s).calls.length ∧
      (NewTextToJSONProvider B fuel config cmd s).outcome =
        .error (.wrapf "error listing models: " e) ∧
      (∀ k : Nat, NewTextToJSONProvider B (fuel + k) config cmd s =
        NewTextToJSONProvider B fuel config cmd s)) ∧
    (∀ req, (NewTextToJSONProvider B fuel config cmd s).calls[i]? = some (.pull req (some e)) →
      i + 1 = (NewTextToJSONProvider B fuel config cmd s).calls.length ∧
      (NewTextToJSONProvider B fuel config cmd s).outcome =
        .error (.wrapf "error pulling model: " e) ∧
      (∀ k : Nat, NewTextToJSONProvider B (fuel + k) config cmd s =
        NewTextToJSONProvider B fuel config cmd s)) := by
  have base :
      ((NewTextToJSONProvider B fuel config cmd s).calls[i]? = some (.list (.error e)) →
        i + 1 = (NewTextToJSONProvider B fuel config cmd s).calls.length ∧
        (NewTextToJSONProvider B fuel config cmd s).outcome =
          .error (.wrapf "error listing models: " e)) ∧
      (∀ req, (NewTextToJSONProvider B fuel config cmd s).calls[i]? = some (.pull req (some e)) →
        i + 1 = (NewTextToJSONProvider B fuel config cmd s).calls.length ∧
        (NewTextToJSONProvider B fuel config cmd s).outcome =
          .error (.wrapf "error pulling model: " e)) := by
    rcases NewTextToJSONProvider_cases B fuel config cmd s with
      ⟨e1, _, hc⟩ | ⟨client, e1, _, hc⟩ | ⟨url, s0, pre, hpre, ho, hc⟩
    · simp [hc]
    · rw [hc]
      cases i <;> simp
    · rw [hc, ho]
      rcases hpre with hpre | hpre
      · subst hpre
        simpa using modelLoop_stops B _ _ fuel s0 i e
      · subst hpre
        cases i with
        | zero => simp
        | succ i => simpa using modelLoop_stops B _ _ fuel s0 i e
  constructor
  · intro h
    obtain ⟨hlen, hout⟩ := base.1 h
    refine ⟨hlen, hout, NewTextToJSONProvider_stable B fuel config cmd s ?_⟩
    rw [hout]
    exact fun hne => Outcome.noConfusion hne
  · intro req h
    obtain ⟨hlen, hout⟩ := base.2 req h
    refine ⟨hlen, hout, NewTextToJSONProvider_stable B fuel config cmd s ?_⟩
    rw [hout]
    exact fun hne => Outcome.noConfusion hne

/-- Two runs of C9: a server whose listing fails, and a server without the model
whose pull fails. -/
theorem NewTextToJSONProvider_stops_witness :
    (NewTextToJSONProvider (simBackend { listErr := some (.base "connection refused") }) 3
        simConfig none []).outcome =
      .error (.wrapf "error listing models: " (.base "connection refused")) ∧
    (NewTextToJSONProvider (simBackend { pullErr := some (.base "file does not exist") }) 3
        simConfig none []).outcome =
      .error (.wrapf "error pulling model: " (.base "file does not exist")) ∧
    1 + 1 = (NewTextToJSONProvider (simBackend { pullErr := some (.base "file does not exist") })
        3 simConfig none []).calls.length :=
  ⟨((NewTextToJSONProvider_stops (simBackend { listErr := some (.base "connection refused") }) 3
      simConfig none [] 0 (.base "connection refused")).1 rfl).2.1,
   ((NewTextToJSONProvider_stops (simBackend { pullErr := some (.base "file does not exist") }) 3
      simConfig none [] 1 (.base "file does not exist")).2 _ rfl).2.1,
   ((NewTextToJSONProvider_stops (simBackend { pullErr := some (.base "file does not exist") }) 3
      simConfig none [] 1 (.base "file does not exist")).2 _ rfl).1⟩

end ollamaprovider
